import Mathlib

/-!
Verification development for the `ego` config-driven data-access gateway.

The Go source is shallowly embedded: pure helper functions become Lean
functions over `List Char` / `String`, database rows and JSON records become
association lists from field names to a `Value` sum type, and the stateful
adapter operations (`List`, `GetOne`, `DeleteOne`, …) become pure state
transformers over a list of rows.  Machine integers are modelled as `Int`
with the explicit `int64` range checks that `strconv.ParseInt` performs.
Go's `float64` only occurs here as the *result of a syntactic parse*; the
numeric value is carried as a canonical decimal pair `m × 10^e` (decimal
notation only - hexadecimal floats, `inf` and `nan` inputs are outside the
model and are documented at `goParseFloat`).
-/

namespace Ego

/-! ### Go string primitives

Lean 4.14's own `String.splitOn`, `String.trim`, … do not reduce inside the
kernel, so the Go string-library functions used by the gateway are modelled
directly over `List Char`.  All strings handled by the claims are ASCII, so
ASCII case folding and ASCII whitespace faithfully model the Go behaviour on
the inputs that occur.
-/

/-- Model of `strings.Split(s, sep)` for a one-character separator:
`splitOnChar c l` cuts `l` at every occurrence of `c`; like Go, the result is
never empty and splitting the empty string yields `[[]]`. -/
def splitOnChar (c : Char) : List Char → List (List Char)
  | [] => [[]]
  | x :: xs =>
    let r := splitOnChar c xs
    if x = c then [] :: r
    else
      match r with
      | [] => [[x]]
      | g :: gs => (x :: g) :: gs

/-- Model of `strings.Split(s, ",")`. -/
def goSplitComma (s : String) : List String :=
  (splitOnChar ',' s.data).map String.mk

/-- Go `unicode.IsSpace` restricted to ASCII (the only whitespace appearing
in query strings and YAML field names). -/
def isGoSpace (c : Char) : Bool :=
  c = ' ' || c = '\t' || c = '\n' || c = '\r' || c = '\x0b' || c = '\x0c'

/-- Model of `strings.TrimSpace`. -/
def goTrim (s : String) : String :=
  String.mk (((s.data.dropWhile isGoSpace).reverse.dropWhile isGoSpace).reverse)

/-- ASCII lower-casing of a single character (Go `strings.ToLower` on the
ASCII identifiers that occur in the configs). -/
def lowerChar : Char → Char
  | 'A' => 'a' | 'B' => 'b' | 'C' => 'c' | 'D' => 'd' | 'E' => 'e' | 'F' => 'f'
  | 'G' => 'g' | 'H' => 'h' | 'I' => 'i' | 'J' => 'j' | 'K' => 'k' | 'L' => 'l'
  | 'M' => 'm' | 'N' => 'n' | 'O' => 'o' | 'P' => 'p' | 'Q' => 'q' | 'R' => 'r'
  | 'S' => 's' | 'T' => 't' | 'U' => 'u' | 'V' => 'v' | 'W' => 'w' | 'X' => 'x'
  | 'Y' => 'y' | 'Z' => 'z'
  | c => c

/-- Model of `strings.ToLower`. -/
def goToLower (s : String) : String :=
  String.mk (s.data.map lowerChar)

/-- Prefix test `startsWithL l p` : does `l` start with `p`? (helper for substring
search). -/
def startsWithL (l p : List Char) : Bool :=
  decide (p.length ≤ l.length) && (l.zip p).all (fun q => q.1 = q.2)

/-- Substring search on char lists (helper for `strContains`). -/
def containsSubL : List Char → List Char → Bool
  | [], needle => needle.isEmpty
  | c :: rest, needle => startsWithL (c :: rest) needle || containsSubL rest needle

/-- Model of `strings.Contains`. -/
def strContains (s t : String) : Bool :=
  containsSubL s.data t.data

/-- Helper `splitFirstSub l sep` finds the first occurrence of `sep` in `l` and
returns the parts before and after it (model of the cut made by
`strings.SplitN(s, sep, 2)` when `sep` occurs). -/
def splitFirstSub : List Char → List Char → Option (List Char × List Char)
  | [], _ => none
  | x :: xs, sep =>
    if startsWithL (x :: xs) sep then some ([], (x :: xs).drop sep.length)
    else
      match splitFirstSub xs sep with
      | none => none
      | some (a, b) => some (x :: a, b)

/-- Model of `strings.SplitN(key, sep, 2)` restricted to the case where
`sep` occurs in `key` (the code guards the call with `strings.Contains`):
returns the part before the first occurrence and the part after it. -/
def goSplitN2 (s sep : String) : Option (String × String) :=
  (splitFirstSub s.data sep.data).map (fun p => (String.mk p.1, String.mk p.2))

/-- The numeric value of a run of decimal digits (`'0'` has code 48). -/
def digitsToNat (l : List Char) : Nat :=
  l.foldl (fun n c => 10 * n + (c.toNat - 48)) 0

/-- Core of `strconv.ParseInt(s, 10, 64)` after the optional sign: a
non-empty run of decimal digits, range-checked against `int64`. -/
def goParseIntCore (l : List Char) (neg : Bool) : Option Int :=
  if l.isEmpty then none
  else if l.all Char.isDigit then
    let n := digitsToNat l
    if neg then
      if n ≤ 2 ^ 63 then some (-(n : Int)) else none
    else
      if n ≤ 2 ^ 63 - 1 then some (n : Int) else none
  else none

/-- Model of `strconv.ParseInt(value, 10, 64)`: optional `+`/`-` sign
followed by decimal digits, result within the `int64` range, else failure. -/
def goParseInt (s : String) : Option Int :=
  match s.data with
  | '+' :: rest => goParseIntCore rest false
  | '-' :: rest => goParseIntCore rest true
  | l => goParseIntCore l false

/-- Model of `strconv.Atoi` as used by the pagination code: the error is discarded by
the callers (`page, _ := strconv.Atoi(pageStr)`), so a failed parse yields
Go's zero value `0`. -/
def goAtoi (s : String) : Int :=
  (goParseInt s).getD 0

/-- Model of `strconv.ParseBool`: the closed list of accepted literals. -/
def goParseBool (s : String) : Option Bool :=
  if s = "1" || s = "t" || s = "T" || s = "TRUE" || s = "true" || s = "True" then
    some true
  else if s = "0" || s = "f" || s = "F" || s = "FALSE" || s = "false" || s = "False" then
    some false
  else none

/-- Strip factors of 10 from the mantissa into the exponent (`fuel` is an
upper bound on the number of strips; recursion stops as soon as the mantissa
is not divisible by 10). -/
def stripTrailing : Nat → Int → Int → Int × Int
  | 0, m, e => (m, e)
  | fuel + 1, m, e =>
    if m % 10 = 0 then stripTrailing fuel (m / 10) (e + 1) else (m, e)

/-- Canonical decimal float `m × 10^e` built from sign, mantissa digits,
fraction length and exponent: zero is `(0, 0)`, otherwise the mantissa holds
no factor of 10.  Two spellings of the same `float64`-representable decimal
value thus compare equal. -/
def mkGoFloat (neg : Bool) (m : Nat) (fracLen : Nat) (ex : Int) : Int × Int :=
  if m = 0 then (0, 0)
  else
    let sm : Int := if neg then -(m : Int) else (m : Int)
    stripTrailing m sm (ex - (fracLen : Int))

/-- Mantissa part of a Go float literal: digits, optionally containing one
dot, at least one digit overall.  Returns the combined digits and the number
of fractional digits. -/
def goParseMantissa (l : List Char) : Option (Nat × Nat) :=
  match splitFirstSub l ['.'] with
  | none =>
    if l.isEmpty || !l.all Char.isDigit then none
    else some (digitsToNat l, 0)
  | some (ip, fp) =>
    if strContains (String.mk fp) "." then none
    else if (ip.isEmpty && fp.isEmpty) || !ip.all Char.isDigit || !fp.all Char.isDigit then none
    else some (digitsToNat (ip ++ fp), fp.length)

/-- Exponent part (after `e`/`E`): optional sign, non-empty digits. -/
def goParseExponent (l : List Char) : Option Int :=
  let core : List Char → Bool → Option Int := fun d neg =>
    if d.isEmpty || !d.all Char.isDigit then none
    else some (if neg then -(digitsToNat d : Int) else (digitsToNat d : Int))
  match l with
  | '+' :: rest => core rest false
  | '-' :: rest => core rest true
  | l => core l false

/-- Model of `strconv.ParseFloat(value, 64)` on decimal notation: optional
sign, digits with an optional dot, optional `e`/`E` exponent.  The numeric
value is carried exactly as a canonical decimal pair `m × 10^e`.  Out of the
model (documented deviation): hexadecimal floats, `inf`/`nan` spellings,
digit-separator underscores and the overflow-to-error behaviour near
`1e308`; none of these occur in the claims. -/
def goParseFloat (s : String) : Option (Int × Int) :=
  let unsigned : Bool → List Char → Option (Int × Int) := fun neg l =>
    match splitFirstSub l ['e'] with
    | some (mant, ex) =>
      match goParseMantissa mant, goParseExponent ex with
      | some (m, f), some e => some (mkGoFloat neg m f e)
      | _, _ => none
    | none =>
      match splitFirstSub l ['E'] with
      | some (mant, ex) =>
        match goParseMantissa mant, goParseExponent ex with
        | some (m, f), some e => some (mkGoFloat neg m f e)
        | _, _ => none
      | none =>
        match goParseMantissa l with
        | some (m, f) => some (mkGoFloat neg m f 0)
        | none => none
  match s.data with
  | '+' :: rest => unsigned false rest
  | '-' :: rest => unsigned true rest
  | l => unsigned false l

/-! ### Values

Go's `interface{}` as it flows through the gateway: JSON / query-string /
database scalars.  `vtime` stands for a `time.Time` instant (nanoseconds
since the zero time, so the Go zero value `time.Time\x7b\x7d` is `vtime 0`);
`vobjid` stands for a Mongo `primitive.ObjectID` built from its 24-character
hex spelling. -/
inductive Value : Type
  | vnull : Value
  | vint : Int → Value
  | vfloat : Int → Int → Value
  | vbool : Bool → Value
  | vstr : String → Value
  | vtime : Nat → Value
  | vobjid : String → Value
deriving DecidableEq, Repr

/-- Model of `parseFilterValue`: try `ParseInt`, then `ParseFloat`, then
`ParseBool`, else keep the raw string. -/
def parseFilterValue (value : String) : Value :=
  match goParseInt value with
  | some i => .vint i
  | none =>
    match goParseFloat value with
    | some f => .vfloat f.1 f.2
    | none =>
      match goParseBool value with
      | some b => .vbool b
      | none => .vstr value

/-- Model of `parseStringList`: empty string gives the empty list, otherwise
a plain comma split (no trimming, no typed parsing). -/
def parseStringList (value : String) : List String :=
  if value = "" then [] else goSplitComma value

/-- Model of `parseFilterValues`: comma split, then each element trimmed and
parsed independently with `parseFilterValue`. -/
def parseFilterValues (value : String) : List Value :=
  (goSplitComma value).map (fun part => parseFilterValue (goTrim part))

/-- Model of `parseKeyFields`: trim the `key` parameter, return `nil` when
empty, else comma-split and trim each field name. -/
def parseKeyFields (keyParam : String) : List String :=
  let k := goTrim keyParam
  if k = "" then [] else (goSplitComma k).map goTrim

/-- One step of `url.QueryUnescape`'s transformation (helper): the value
of a hex digit by its code point (48-57 digits, 97-102 lower, 65-70
upper). -/
def hexVal (c : Char) : Option Nat :=
  if 48 ≤ c.toNat && c.toNat ≤ 57 then some (c.toNat - 48)
  else if 97 ≤ c.toNat && c.toNat ≤ 102 then some (c.toNat - 87)
  else if 65 ≤ c.toNat && c.toNat ≤ 70 then some (c.toNat - 55)
  else none

/-- Model of `url.QueryUnescape` on char lists: `%XX` decodes, `+` becomes space,
malformed escapes fail. -/
def unescapeChars : List Char → Option (List Char)
  | [] => some []
  | '%' :: a :: b :: rest =>
    match hexVal a, hexVal b with
    | some ha, some hb => (unescapeChars rest).map (fun r => Char.ofNat (ha * 16 + hb) :: r)
    | _, _ => none
  | '%' :: _ :: [] => none
  | '%' :: [] => none
  | '+' :: rest => (unescapeChars rest).map (fun r => ' ' :: r)
  | c :: rest => (unescapeChars rest).map (fun r => c :: r)

/-- Model of `normalizeLikeValue`: URL-decode, falling back to the raw value
on a decode error. -/
def normalizeLikeValue (value : String) : String :=
  match unescapeChars value.data with
  | some l => String.mk l
  | none => value

/-! ### Association-list maps

Go maps (`map[string]interface{}`, `bson.M`, `url.Values` first values) are
modelled as association lists compared by lookup.  `setKV` mirrors map
assignment: it replaces the entry in place when the key exists and appends
otherwise, and `lookupKV` mirrors indexing. -/

def lookupKV {α : Type} : List (String × α) → String → Option α
  | [], _ => none
  | (k', v) :: rest, k => if k' = k then some v else lookupKV rest k

def hasKey {α : Type} (l : List (String × α)) (k : String) : Bool :=
  l.any (fun p => p.1 = k)

/-- Map assignment: replace the binding when the key is present (association
lists stand for Go maps, whose keys are unique, so replacing the first
binding is replacement of the binding), append otherwise. -/
def setKV {α : Type} : List (String × α) → String → α → List (String × α)
  | [], k, v => [(k, v)]
  | (k', v') :: rest, k, v =>
    if k' = k then (k, v) :: rest else (k', v') :: setKV rest k v

def removeKV {α : Type} : List (String × α) → String → List (String × α)
  | [], _ => []
  | (k', v') :: rest, k => if k' = k then removeKV rest k else (k', v') :: removeKV rest k

/-! ### Table configuration

Mirror of the Go `tableConfig`.  In the Go struct `UniqueKeys` and
`AutoUpdateFields` are YAML-decoded `interface\x7b\x7d` values that the
accessors `GetUniqueKeys` / `GetAutoUpdateFields` normalize to `[][]string`
and `[]string`; the model carries the normalized forms directly, so
`tc.uniqueKeys` stands for `tc.GetUniqueKeys()` and `tc.autoUpdateFields`
for `tc.GetAutoUpdateFields()`. -/
structure TableConfig where
  name : String
  aliasName : String
  primaryKey : String
  uniqueKeys : List (List String)
  defaultValues : List (String × Value)
  softDeleteKey : String
  softDeleteType : String
  autoUpdateFields : List String
deriving DecidableEq, Repr

/-- Model of `tableConfig.IsValidKeyCombination`: some configured group has
the same length and agrees element by element (order-sensitively) with the
requested field list. -/
def isValidKeyCombination (tc : TableConfig) (fields : List String) : Bool :=
  tc.uniqueKeys.any (fun k =>
    k.length = fields.length && (k.zip fields).all (fun p => p.1 = p.2))

/-! ### Rows, documents and soft-delete predicates

A relational row is a total assignment of SQL values to its columns, so a
column that is not in the association list reads as SQL `NULL`.  A Mongo
document may genuinely lack a field, so document reads stay in
`Option Value`. -/

/-- A relational row / JSON record / Mongo document: field name to value. -/
abbrev Row := List (String × Value)

/-- Reading a column of a relational row (`NULL` when absent). -/
def getCol (r : Row) (k : String) : Value :=
  (lookupKV r k).getD .vnull

/-- SQL `=` comparison: `NULL` compares equal to nothing (a `WHERE k = v`
clause never matches a `NULL` column).  Cross-type coercions performed by
some backends are outside the model; every filter value produced by the
single-record handlers is a string taken from the URL path. -/
def sqlEq (a b : Value) : Bool :=
  if a = .vnull || b = .vnull then false else a = b

/-- A row matches a `filter` map when every entry compares equal. -/
def matchesRow (filter : List (String × Value)) (r : Row) : Bool :=
  filter.all (fun p => sqlEq (getCol r p.1) p.2)

/-- The read predicate of `applyGormSoftDeleteFilter` on the soft-delete
column's value, per configured `softdel_type`: timestamp reads
`key IS NULL OR key = time.Time\x7b\x7d`, boolean reads `key = false`, int
reads `key = 0`, and any other configured type reads `key IS NULL`. -/
def softDelReadPasses (tc : TableConfig) (v : Value) : Bool :=
  if tc.softDeleteType = "timestamp" then v == .vnull || v == .vtime 0
  else if tc.softDeleteType = "boolean" then v == .vbool false
  else if tc.softDeleteType = "int" then v == .vint 0
  else v == .vnull

/-- Model of `applyGormSoftDeleteFilter` as a row predicate: no condition
when no soft-delete key is configured, else the `softdel_type` read
predicate on the key's column. -/
def passesGormSoftDel (tc : TableConfig) (r : Row) : Bool :=
  if tc.softDeleteKey = "" then true
  else softDelReadPasses tc (getCol r tc.softDeleteKey)

/-- The marker value written by the delete paths (`DeleteOne`,
`BatchDelete`): `time.Now()` for timestamp, `true` for boolean, `1` for
int, `time.Now()` for any other configured type.  `now` is the current
instant; it is distinct from the zero time whenever `now ≠ 0`. -/
def softDeleteMarkValue (tc : TableConfig) (now : Nat) : Value :=
  if tc.softDeleteType = "timestamp" then .vtime now
  else if tc.softDeleteType = "boolean" then .vbool true
  else if tc.softDeleteType = "int" then .vint 1
  else .vtime now

/-! ### Value comparison and LIKE matching

Backend comparison semantics, to give the filter grammar a meaning.  Only
same-type comparisons (and int/float numeric mixes) are defined; the claims
below never depend on comparisons across other type pairs. -/

/-- Lexicographic `≤` on char lists. -/
def lexLeChars : List Char → List Char → Bool
  | [], _ => true
  | _ :: _, [] => false
  | a :: as, b :: bs =>
    if a = b then lexLeChars as bs else decide (a.toNat < b.toNat)

/-- Numeric `≤` between decimal pairs `m × 10^e`: scale to a common exponent
and compare the integer mantissas. -/
def decLe (m₁ e₁ m₂ e₂ : Int) : Bool :=
  let s := min e₁ e₂
  m₁ * 10 ^ (e₁ - s).toNat ≤ m₂ * 10 ^ (e₂ - s).toNat

/-- Order `≤` between values (same type, or int/float numeric mix). -/
def valueLe : Value → Value → Bool
  | .vint a, .vint b => a ≤ b
  | .vint a, .vfloat m e => decLe a 0 m e
  | .vfloat m e, .vint b => decLe m e b 0
  | .vfloat m e, .vfloat m' e' => decLe m e m' e'
  | .vtime a, .vtime b => a ≤ b
  | .vstr a, .vstr b => lexLeChars a.data b.data
  | _, _ => false

def valueLt (a b : Value) : Bool :=
  valueLe a b && !(a == b)

/-- SQL `LIKE` matching with fuel (structural recursion so that concrete
instances evaluate in the kernel): `%` matches any run, `_` any single
character. -/
def likeFuel : Nat → List Char → List Char → Bool
  | 0, _, _ => false
  | _ + 1, [], s => s.isEmpty
  | fuel + 1, '%' :: ps, s =>
    likeFuel fuel ps s ||
      (match s with
       | [] => false
       | _ :: rest => likeFuel fuel ('%' :: ps) rest)
  | fuel + 1, '_' :: ps, s =>
    (match s with
     | [] => false
     | _ :: rest => likeFuel fuel ps rest)
  | fuel + 1, p :: ps, s =>
    (match s with
     | [] => false
     | c :: rest => p = c && likeFuel fuel ps rest)

/-- SQL `LIKE`. -/
def sqlLike (s pat : String) : Bool :=
  likeFuel (s.data.length + pat.data.length + 1) pat.data s.data

/-! ### Relational (GORM) adapter

The chain of `db.Where(...)` clauses built by `gormAdapter.List` is
represented as a list of conditions; a query matches a row when every
condition holds.  `ORDER BY` permutes the filtered rows and `SELECT`
projects columns - neither affects which rows pass the filter, and no claim
below depends on sort order or projection, so the model keeps the rows in
table order with all columns. -/

inductive GormCond : Type
  | eqc : String → Value → GormCond
  | gte : String → Value → GormCond
  | lte : String → Value → GormCond
  | gtc : String → Value → GormCond
  | ltc : String → Value → GormCond
  | nec : String → Value → GormCond
  | likec : String → String → GormCond
  | icontains : String → String → GormCond
  | inList : String → List String → GormCond
  | isNull : String → GormCond
  | isNotNull : String → GormCond
  | between : String → Value → Value → GormCond
deriving DecidableEq, Repr

/-- The four reserved query-parameter names skipped by the filter loops
(`page`, `page_size`, `fields`, `order`). -/
def filterParamKeyExcluded (k : String) : Bool :=
  k = "page" || k = "page_size" || k = "fields" || k = "order"

/-- The `WHERE` clause(s) `gormAdapter.List` adds for one query parameter:
the key is split at the first `__` into field name and operator, the value
is parsed three ways (`parseFilterValue`, `parseStringList`,
`parseFilterValues`), and the switch picks the clause.  Note that `__in`
binds the *raw comma-split strings* (`stringVals`) while `__between` binds
the parsed values (`parsedVals`); `__isnull` adds a clause only when the
value parses as a boolean, `__between` only when exactly two values are
present, and an unknown operator adds nothing. -/
def gormCondOfParam (key value : String) : List GormCond :=
  let fieldOp : String × String :=
    if strContains key "__" then
      match goSplitN2 key "__" with
      | some (f, rest) => (f, "__" ++ rest)
      | none => (key, "=")
    else (key, "=")
  let fieldName := fieldOp.1
  let op := fieldOp.2
  let parsedVal := parseFilterValue value
  let stringVals := parseStringList value
  let parsedVals := parseFilterValues value
  if op = "=" then [.eqc fieldName parsedVal]
  else if op = "__gte" then [.gte fieldName parsedVal]
  else if op = "__lte" then [.lte fieldName parsedVal]
  else if op = "__gt" then [.gtc fieldName parsedVal]
  else if op = "__lt" then [.ltc fieldName parsedVal]
  else if op = "__ne" then [.nec fieldName parsedVal]
  else if op = "__like" then [.likec fieldName (normalizeLikeValue value)]
  else if op = "__icontains" then
    [.icontains fieldName ("%" ++ normalizeLikeValue value ++ "%")]
  else if op = "__in" then [.inList fieldName stringVals]
  else if op = "__isnull" then
    match parsedVal with
    | .vbool true => [.isNull fieldName]
    | .vbool false => [.isNotNull fieldName]
    | _ => []
  else if op = "__between" then
    match parsedVals with
    | [lo, hi] => [.between fieldName lo hi]
    | _ => []
  else []

/-- All `WHERE` clauses built from the query parameters (the reserved four
are skipped).  The Go loop ranges over a map in unspecified order; the
clauses are a conjunction, so the order is irrelevant and the model keeps
the parameter order. -/
def buildGormConds (params : List (String × String)) : List GormCond :=
  params.foldr
    (fun p acc =>
      if filterParamKeyExcluded p.1 then acc else gormCondOfParam p.1 p.2 ++ acc)
    []

/-- Evaluating one condition on a row. -/
def evalGormCond (r : Row) : GormCond → Bool
  | .eqc f v => sqlEq (getCol r f) v
  | .gte f v => getCol r f != .vnull && v != .vnull && valueLe v (getCol r f)
  | .lte f v => getCol r f != .vnull && v != .vnull && valueLe (getCol r f) v
  | .gtc f v => getCol r f != .vnull && v != .vnull && valueLt v (getCol r f)
  | .ltc f v => getCol r f != .vnull && v != .vnull && valueLt (getCol r f) v
  | .nec f v => getCol r f != .vnull && v != .vnull && getCol r f != v
  | .likec f pat =>
    (match getCol r f with
     | .vstr s => sqlLike s pat
     | _ => false)
  | .icontains f pat =>
    (match getCol r f with
     | .vstr s => sqlLike (goToLower s) (goToLower pat)
     | _ => false)
  | .inList f vs => vs.any (fun s => sqlEq (getCol r f) (.vstr s))
  | .isNull f => getCol r f == .vnull
  | .isNotNull f => getCol r f != .vnull
  | .between f lo hi =>
    getCol r f != .vnull && valueLe lo (getCol r f) && valueLe (getCol r f) hi

/-- Parameters of a list request after the handler resolved pagination. -/
structure ListQueryParams where
  page : Int
  pageSize : Int
  fields : String
  order : String
  queryFilters : List (String × String)
deriving Repr

/-- The rows passing `gormAdapter.List`'s query: soft-delete predicate plus
all filter clauses. -/
def gormFilteredRows (tc : TableConfig) (rows : List Row) (params : ListQueryParams) :
    List Row :=
  rows.filter (fun r =>
    passesGormSoftDel tc r && (buildGormConds params.queryFilters).all (evalGormCond r))

/-- Model of `gormAdapter.List`: the returned page is
`OFFSET (page-1)*page_size LIMIT page_size` over the filtered rows, and the
returned total is the `COUNT` over the filtered rows when at least one
non-reserved parameter is present (`hasFilter`), else `0`. -/
def gormList (tc : TableConfig) (rows : List Row) (params : ListQueryParams) :
    List Row × Int :=
  (((gormFilteredRows tc rows params).drop
      ((params.page - 1) * params.pageSize).toNat).take params.pageSize.toNat,
   if params.queryFilters.any (fun p => !filterParamKeyExcluded p.1) then
     ((gormFilteredRows tc rows params).length : Int)
   else 0)

/-- Adapter-level failures distinguished by the REST engine. -/
inductive AdapterErr : Type
  | notFound : AdapterErr
deriving DecidableEq, Repr

instance {ε α : Type} [DecidableEq ε] [DecidableEq α] : DecidableEq (Except ε α) :=
  fun x y =>
    match x, y with
    | .ok a, .ok b =>
      if h : a = b then isTrue (by rw [h]) else isFalse (by simp [h])
    | .error a, .error b =>
      if h : a = b then isTrue (by rw [h]) else isFalse (by simp [h])
    | .ok _, .error _ => isFalse (by simp)
    | .error _, .ok _ => isFalse (by simp)

/-- Model of `gormAdapter.GetOne`: soft-delete predicate plus one `WHERE
k = v` per filter entry, `Take` returning the first match or
`gorm.ErrRecordNotFound`. -/
def gormGetOne (tc : TableConfig) (rows : List Row) (filter : List (String × Value)) :
    Except AdapterErr Row :=
  match rows.find? (fun r => passesGormSoftDel tc r && matchesRow filter r) with
  | some r => .ok r
  | none => .error .notFound

/-- The HTTP status `handleGetOne` maps a `GetOne` outcome to:
`gorm.ErrRecordNotFound` becomes 404, success 200. -/
def getOneHttpStatus (res : Except AdapterErr Row) : Nat :=
  match res with
  | .ok _ => 200
  | .error .notFound => 404

/-- Model of `gormAdapter.DeleteOne`.  The query is built from the filter
*without* the soft-delete read predicate.  With a soft-delete key configured
the delete is an `UPDATE` writing the marker value into every matching row;
without one it is a physical `DELETE`.  `RowsAffected` is modelled as the
number of rows the statement matched (drivers may instead report rows
changed; no claim below depends on the difference except where noted).  When
zero rows are affected the code re-counts the filter on the same transaction
and maps an empty count to `gorm.ErrRecordNotFound`. -/
def gormDeleteOne (tc : TableConfig) (now : Nat) (rows : List Row)
    (filter : List (String × Value)) : Except AdapterErr (Nat × List Row) :=
  if tc.softDeleteKey = "" then
    if rows.length - (rows.filter (fun r => !matchesRow filter r)).length = 0 then
      if ((rows.filter (fun r => !matchesRow filter r)).filter
            (matchesRow filter)).length = 0 then
        .error .notFound
      else
        .ok (rows.length - (rows.filter (fun r => !matchesRow filter r)).length,
          rows.filter (fun r => !matchesRow filter r))
    else
      .ok (rows.length - (rows.filter (fun r => !matchesRow filter r)).length,
        rows.filter (fun r => !matchesRow filter r))
  else
    if (rows.filter (matchesRow filter)).length = 0 then
      if ((rows.map (fun r =>
              if matchesRow filter r then
                setKV r tc.softDeleteKey (softDeleteMarkValue tc now)
              else r)).filter (matchesRow filter)).length = 0 then
        .error .notFound
      else
        .ok ((rows.filter (matchesRow filter)).length,
          rows.map (fun r =>
            if matchesRow filter r then
              setKV r tc.softDeleteKey (softDeleteMarkValue tc now)
            else r))
    else
      .ok ((rows.filter (matchesRow filter)).length,
        rows.map (fun r =>
          if matchesRow filter r then
            setKV r tc.softDeleteKey (softDeleteMarkValue tc now)
          else r))

/-- Model of `gormAdapter.CountAll`: count under the soft-delete read
predicate only. -/
def gormCountAll (tc : TableConfig) (rows : List Row) : Int :=
  ((rows.filter (passesGormSoftDel tc)).length : Int)

/-! ### Document (Mongo) adapter

A Mongo document is the same association-list shape as a row, but a missing
field is genuinely absent (not `NULL`).  The `bson.M` filter map is an
association list built with `setKV`, mirroring map assignment (a later
assignment to the same key overwrites). -/

/-- A Mongo document. -/
abbrev Doc := Row

/-- Mongo equality filter `\x7bk: v\x7d`: filtering on `null` also matches
documents lacking the field. -/
def mongoEqMatches (d : Doc) (k : String) (v : Value) : Bool :=
  match v with
  | .vnull =>
    (match lookupKV d k with
     | none => true
     | some .vnull => true
     | some _ => false)
  | v => lookupKV d k == some v

/-- A hexadecimal digit (for `primitive.ObjectIDFromHex`), by code
point. -/
def isHexChar (c : Char) : Bool :=
  (48 ≤ c.toNat && c.toNat ≤ 57) || (97 ≤ c.toNat && c.toNat ≤ 102) ||
    (65 ≤ c.toNat && c.toNat ≤ 70)

/-- The `_id` coercion performed by the Mongo adapter: a 24-character hex
string under the `_id` key becomes a native object id. -/
def mongoObjIdConvert (k : String) (v : Value) : Value :=
  if k = "_id" then
    match v with
    | .vstr s => if s.data.length = 24 && s.data.all isHexChar then .vobjid s else .vstr s
    | v => v
  else v

/-- The regex-lite tokens of the patterns the adapter generates
(`regexp.QuoteMeta` output with `%`→`.*`, `_`→`.` and optional anchors). -/
inductive RegTok : Type
  | lit : Char → RegTok
  | anyOne : RegTok
  | anyStar : RegTok
  | endAnchor : RegTok
deriving DecidableEq, Repr

/-- Tokenize a generated pattern (after the optional leading `^` has been
stripped by the caller). -/
def regToks : List Char → List RegTok
  | [] => []
  | '\\' :: c :: rest => .lit c :: regToks rest
  | '\\' :: [] => []
  | '.' :: '*' :: rest => .anyStar :: regToks rest
  | '.' :: rest => .anyOne :: regToks rest
  | '$' :: rest => .endAnchor :: regToks rest
  | c :: rest => .lit c :: regToks rest

/-- Token-list matching with fuel (kernel-reducible): without an
`endAnchor` the match may stop anywhere. -/
def regMatchFuel : Nat → List RegTok → List Char → Bool
  | 0, _, _ => false
  | _ + 1, [], _ => true
  | _ + 1, .endAnchor :: _, s => s.isEmpty
  | fuel + 1, .anyStar :: ts, s =>
    regMatchFuel fuel ts s ||
      (match s with
       | [] => false
       | _ :: rest => regMatchFuel fuel (.anyStar :: ts) rest)
  | fuel + 1, .anyOne :: ts, s =>
    (match s with
     | [] => false
     | _ :: rest => regMatchFuel fuel ts rest)
  | fuel + 1, .lit p :: ts, s =>
    (match s with
     | [] => false
     | c :: rest => p = c && regMatchFuel fuel ts rest)

/-- Unanchored search: try every start position. -/
def regSearchFuel : Nat → List RegTok → List Char → Bool
  | fuel, ts, [] => regMatchFuel fuel ts []
  | fuel, ts, c :: rest =>
    regMatchFuel fuel ts (c :: rest) || regSearchFuel fuel ts rest

/-- Matching a generated pattern against a subject, `ci` for the `i`
option (both sides ASCII-lowered). -/
def mongoRegexMatch (pattern subject : String) (ci : Bool) : Bool :=
  let pd := if ci then pattern.data.map lowerChar else pattern.data
  let sd := if ci then subject.data.map lowerChar else subject.data
  let fuel := pd.length + sd.length + 1
  match pd with
  | '^' :: rest => regMatchFuel fuel (regToks rest) sd
  | pd => regSearchFuel fuel (regToks pd) sd

/-- One field predicate of a Mongo filter document. -/
inductive MongoPred : Type
  | eqp : Value → MongoPred
  | gtep : Value → MongoPred
  | ltep : Value → MongoPred
  | gtp : Value → MongoPred
  | ltp : Value → MongoPred
  | nep : Value → MongoPred
  | regex : String → Bool → MongoPred
  | inp : List Value → MongoPred
  | existsp : Bool → MongoPred
  | rangep : Value → Value → MongoPred
  | orNullish : String → Bool → MongoPred
deriving DecidableEq, Repr

/-- Evaluating the predicate stored under key `k` on a document (the
`orNullish` soft-delete disjunction is stored under `$or` and names its own
field). -/
def evalMongoEntry (d : Doc) (k : String) : MongoPred → Bool
  | .eqp v => mongoEqMatches d k v
  | .gtep v =>
    (match lookupKV d k with
     | some x => valueLe v x
     | none => false)
  | .ltep v =>
    (match lookupKV d k with
     | some x => valueLe x v
     | none => false)
  | .gtp v =>
    (match lookupKV d k with
     | some x => valueLt v x
     | none => false)
  | .ltp v =>
    (match lookupKV d k with
     | some x => valueLt x v
     | none => false)
  | .nep v => !mongoEqMatches d k v
  | .regex pat ci =>
    (match lookupKV d k with
     | some (.vstr s) => mongoRegexMatch pat s ci
     | _ => false)
  | .inp vs => vs.any (mongoEqMatches d k)
  | .existsp b => hasKey d k == b
  | .rangep lo hi =>
    (match lookupKV d k with
     | some x => valueLe lo x && valueLe x hi
     | none => false)
  | .orNullish f alsoEmpty =>
    (match lookupKV d f with
     | none => true
     | some .vnull => true
     | some (.vstr s) => alsoEmpty && s = ""
     | some _ => false)

/-- A document matches a filter map when every entry's predicate holds. -/
def mongoDocMatches (fb : List (String × MongoPred)) (d : Doc) : Bool :=
  fb.all (fun p => evalMongoEntry d p.1 p.2)

/-- Model of `applyMongoSoftDeleteFilter`: timestamp adds an `$or` of
missing/null/empty-string, boolean assigns `key = false`, int assigns
`key = 0`, any other configured type adds an `$or` of missing/null. -/
def applyMongoSoftDeleteFilter (filter : List (String × MongoPred)) (tc : TableConfig) :
    List (String × MongoPred) :=
  if tc.softDeleteKey = "" then filter
  else if tc.softDeleteType = "timestamp" then
    setKV filter "$or" (.orNullish tc.softDeleteKey true)
  else if tc.softDeleteType = "boolean" then
    setKV filter tc.softDeleteKey (.eqp (.vbool false))
  else if tc.softDeleteType = "int" then
    setKV filter tc.softDeleteKey (.eqp (.vint 0))
  else setKV filter "$or" (.orNullish tc.softDeleteKey false)

/-- The regex special characters escaped by `regexp.QuoteMeta`. -/
def isRegexSpecial (c : Char) : Bool :=
  c = '\\' || c = '.' || c = '+' || c = '*' || c = '?' || c = '(' || c = ')' ||
    c = '|' || c = '[' || c = ']' || c = '\x7b' || c = '\x7d' || c = '^' || c = '$'

/-- Model of `regexp.QuoteMeta`. -/
def regexQuoteMeta (s : String) : String :=
  String.mk ((s.data.map (fun c => if isRegexSpecial c then ['\\', c] else [c])).flatten)

/-- The `__like` pattern construction: quote, turn `%` into `.*` and `_`
into `.`, then anchor each side that does not start/end with `.*`. -/
def mongoLikePattern (value : String) : String :=
  let p := ((regexQuoteMeta value).data.map
    (fun c => if c = '%' then ['.', '*'] else if c = '_' then ['.'] else [c])).flatten
  let p := if !startsWithL p ['.', '*'] then '^' :: p else p
  let p := if !startsWithL p.reverse ['*', '.'] then p ++ ['$'] else p
  String.mk p

/-- The filter-map entry `mongoAdapter.List` assigns for one query
parameter (mirror of the switch; `none` when the operator adds nothing).
Note that Mongo's `__in` uses the *parsed* values (`parseFilterValues`),
unlike the relational adapter. -/
def mongoPredOfParam (key value : String) : Option (String × MongoPred) :=
  let fieldOp : String × String :=
    if strContains key "__" then
      match goSplitN2 key "__" with
      | some (f, rest) => (f, "__" ++ rest)
      | none => (key, "=")
    else (key, "=")
  let fieldName := fieldOp.1
  let op := fieldOp.2
  if op = "=" then some (fieldName, .eqp (parseFilterValue value))
  else if op = "__gte" then some (fieldName, .gtep (parseFilterValue value))
  else if op = "__lte" then some (fieldName, .ltep (parseFilterValue value))
  else if op = "__gt" then some (fieldName, .gtp (parseFilterValue value))
  else if op = "__lt" then some (fieldName, .ltp (parseFilterValue value))
  else if op = "__ne" then some (fieldName, .nep (parseFilterValue value))
  else if op = "__like" then some (fieldName, .regex (mongoLikePattern value) true)
  else if op = "__icontains" then some (fieldName, .regex value true)
  else if op = "__in" then some (fieldName, .inp (parseFilterValues value))
  else if op = "__isnull" then
    match parseFilterValue value with
    | .vbool true => some (fieldName, .existsp false)
    | .vbool false => some (fieldName, .existsp true)
    | _ => none
  else if op = "__between" then
    match parseFilterValues value with
    | [lo, hi] => some (fieldName, .rangep lo hi)
    | _ => none
  else none

/-- The full filter map built by `mongoAdapter.List`: the soft-delete
read condition first, then one assignment per non-reserved parameter. -/
def buildMongoFilter (tc : TableConfig) (params : List (String × String)) :
    List (String × MongoPred) :=
  params.foldl
    (fun acc p =>
      if filterParamKeyExcluded p.1 then acc
      else
        match mongoPredOfParam p.1 p.2 with
        | some e => setKV acc e.1 e.2
        | none => acc)
    (applyMongoSoftDeleteFilter [] tc)

/-- Model of `mongoAdapter.List`: `skip = (page-1)*page_size`,
`limit = page_size` over the documents matching the filter map;
`CountDocuments` over the same filter when a non-reserved parameter is
present, else total `0`.  Sort and projection are omitted as in the
relational model. -/
def mongoList (tc : TableConfig) (docs : List Doc) (params : ListQueryParams) :
    List Doc × Int :=
  (((docs.filter (mongoDocMatches (buildMongoFilter tc params.queryFilters))).drop
      ((params.page - 1) * params.pageSize).toNat).take params.pageSize.toNat,
   if params.queryFilters.any (fun p => !filterParamKeyExcluded p.1) then
     ((docs.filter (mongoDocMatches (buildMongoFilter tc params.queryFilters))).length : Int)
   else 0)

/-- Split a list at the first element satisfying `p`. -/
def findFirstSplit {α : Type} (p : α → Bool) : List α → Option (List α × α × List α)
  | [] => none
  | x :: xs =>
    if p x then some ([], x, xs)
    else
      match findFirstSplit p xs with
      | none => none
      | some (a, y, b) => some (x :: a, y, b)

/-- The filter map of `mongoAdapter.DeleteOne`: the handler's filter with
the `_id` hex coercion applied to each entry. -/
def mongoDeleteFilter (filter : List (String × Value)) : List (String × Value) :=
  filter.map (fun p => (p.1, mongoObjIdConvert p.1 p.2))

/-- Whether a document matches `mongoAdapter.DeleteOne`'s filter map (the
handler's filter with the `_id` coercion; equality entries only). -/
def mongoDeleteMatches (filter : List (String × Value)) (d : Doc) : Bool :=
  (mongoDeleteFilter filter).all (fun p => mongoEqMatches d p.1 p.2)

/-- Model of `mongoAdapter.DeleteOne`.  The filter map is the handler's
filter with the `_id` hex coercion; *no soft-delete read predicate is
added* (unlike `mongoAdapter.UpdateOne`).  With a soft-delete key the
operation is `UpdateOne` with `$set` of the marker on the first matching
document, returning its `ModifiedCount` (0 when `$set` leaves the document
unchanged); zero matches are re-counted and mapped to
`mongo.ErrNoDocuments`.  Without a soft-delete key it physically deletes
the first matching document. -/
def mongoDeleteOne (tc : TableConfig) (now : Nat) (docs : List Doc)
    (filter : List (String × Value)) : Except AdapterErr (Nat × List Doc) :=
  if tc.softDeleteKey = "" then
    match findFirstSplit (mongoDeleteMatches filter) docs with
    | none => .error .notFound
    | some (a, _, b) => .ok (1, a ++ b)
  else
    match findFirstSplit (mongoDeleteMatches filter) docs with
    | none => .error .notFound
    | some (a, d, b) =>
      .ok ((if setKV d tc.softDeleteKey (softDeleteMarkValue tc now) = d then 0 else 1),
        a ++ setKV d tc.softDeleteKey (softDeleteMarkValue tc now) :: b)

/-! ### REST engine -/

/-- The pagination-relevant part of the gateway configuration (`_base.yaml`;
the shipped defaults are `default_page = 1`, `default_page_size = 10`,
`max_page_size = 1000`). -/
structure DmConfig where
  defaultPage : Int
  defaultPageSize : Int
  maxPageSize : Int
deriving DecidableEq, Repr

/-- The raw `page` value before fallback: `c.DefaultQuery` substitutes
`strconv.Itoa(DefaultPage)` when the parameter is absent and
`strconv.Atoi ∘ strconv.Itoa` is the identity on `int`, so the absent case
yields `DefaultPage` directly; a present value goes through `Atoi` (`0` on
parse error). -/
def pageRaw (cfg : DmConfig) (q : Option String) : Int :=
  match q with
  | some s => goAtoi s
  | none => cfg.defaultPage

/-- Page resolution in `handleList`: a non-positive raw value falls back to
`DefaultPage`. -/
def resolvePage (cfg : DmConfig) (q : Option String) : Int :=
  if pageRaw cfg q ≤ 0 then cfg.defaultPage else pageRaw cfg q

/-- The raw `page_size` value (see `pageRaw`). -/
def pageSizeRaw (cfg : DmConfig) (q : Option String) : Int :=
  match q with
  | some s => goAtoi s
  | none => cfg.defaultPageSize

/-- The `if pageSize <= 0` fallback of `handleList`. -/
def fallbackPageSize (cfg : DmConfig) (ps : Int) : Int :=
  if ps ≤ 0 then cfg.defaultPageSize else ps

/-- The `if pageSize > MaxPageSize` cap of `handleList`. -/
def capPageSize (cfg : DmConfig) (ps : Int) : Int :=
  if ps > cfg.maxPageSize then cfg.maxPageSize else ps

/-- Page-size resolution in `handleList`: fallback, then cap. -/
def resolvePageSize (cfg : DmConfig) (q : Option String) : Int :=
  capPageSize cfg (fallbackPageSize cfg (pageSizeRaw cfg q))

/-- Mirror of `handleList`'s filter detection: some query key other than the four
reserved parameter names is present. -/
def isFilteredRequest (qp : List (String × String)) : Bool :=
  qp.any (fun p => !filterParamKeyExcluded p.1)

/-- The count-cache key `fmt.Sprintf("%s_%s", dbName, tableAlias)`. -/
def countCacheKey (db tbl : String) : String :=
  db ++ "_" ++ tbl

/-- One step of `updateAllTableCounts`: store the adapter's `CountAll`
result for `(database alias, table alias)` in the shared cache. -/
def refreshTableCount (cache : List (String × Int)) (db : String) (tc : TableConfig)
    (rows : List Row) : List (String × Int) :=
  setKV cache (countCacheKey db tc.aliasName) (gormCountAll tc rows)

/-- The `listParams` a list request resolves to: pagination from the query
with defaults and clamping, plus the raw query map. -/
def handleListParams (cfg : DmConfig) (qp : List (String × String)) : ListQueryParams :=
  ⟨resolvePage cfg (lookupKV qp "page"), resolvePageSize cfg (lookupKV qp "page_size"),
   (lookupKV qp "fields").getD "", (lookupKV qp "order").getD "", qp⟩

/-- Mirror of `handleList` over the relational adapter: resolve pagination from the
query, call `List`, then choose the response's `total`: the cached count
when the request carries no filter parameter and the cache has an entry,
else the adapter's total.  Returns `(total, data page)`. -/
def handleListResult (cfg : DmConfig) (cache : List (String × Int)) (db : String)
    (tc : TableConfig) (rows : List Row) (qp : List (String × String)) :
    Int × List Row :=
  (if !isFilteredRequest qp then
     match lookupKV cache (countCacheKey db tc.aliasName) with
     | some c => c
     | none => (gormList tc rows (handleListParams cfg qp)).2
   else (gormList tc rows (handleListParams cfg qp)).2,
   (gormList tc rows (handleListParams cfg qp)).1)

/-- The error classes of the single-record handlers. -/
inductive RouteErr : Type
  | badRequest400 : RouteErr
  | internal500 : RouteErr
deriving DecidableEq, Repr

/-- The lookup-filter construction shared verbatim by `handleGetOne`,
`handleUpdateOne` and `handleDeleteOne`: with a non-empty `?key=` list the
combination must be a configured unique-key group and the comma-split path
segment must pair positionally with it (else 400); without `?key=` the
filter is the primary key bound to the raw path segment (500 when no
primary key is configured).  All filter values are the path strings. -/
def buildIdFilter (tc : TableConfig) (idValStr keyParam : String) :
    Except RouteErr (List (String × Value)) :=
  if (parseKeyFields keyParam).isEmpty then
    if tc.primaryKey = "" then .error .internal500
    else .ok [(tc.primaryKey, .vstr idValStr)]
  else if !isValidKeyCombination tc (parseKeyFields keyParam) then
    .error .badRequest400
  else if (parseStringList idValStr).length ≠ (parseKeyFields keyParam).length then
    .error .badRequest400
  else
    .ok (((parseKeyFields keyParam).zip (parseStringList idValStr)).map
      (fun p => (p.1, .vstr p.2)))

/-- Model of `applyAutoUpdateFields`: stamp every configured auto-update
field with the current time (a no-op when the list is empty). -/
def applyAutoUpdateFields (now : Nat) (tc : TableConfig) (record : Row) : Row :=
  tc.autoUpdateFields.foldl (fun acc f => setKV acc f (.vtime now)) record

/-- The payload processing of `handleUpdateOne` after JSON binding: delete
every key of the lookup filter from the payload, reject an empty remainder
with 400 *before* stamping the auto-update fields, else stamp and hand the
data to the adapter. -/
def handleUpdateOneBody (tc : TableConfig) (filter : List (String × Value))
    (payload : Row) (now : Nat) : Except RouteErr Row :=
  if (payload.filter (fun p => !hasKey filter p.1)).isEmpty then
    .error .badRequest400
  else .ok (applyAutoUpdateFields now tc (payload.filter (fun p => !hasKey filter p.1)))

/-! ### Default values -/

/-- The template literals of `default_values`. -/
def defaultValueNow : String := "\x7b\x7bnow\x7d\x7d"

def defaultValueSnowflake : String := "\x7b\x7bsnowflake\x7d\x7d"

def defaultValueULID : String := "\x7b\x7bulid\x7d\x7d"

def defaultValueUUIDv4 : String := "\x7b\x7buuidv4\x7d\x7d"

def defaultValueUUIDv7 : String := "\x7b\x7buuidv7\x7d\x7d"

/-- The generator state read by template evaluation: the current instant and
the ids the process-wide generators would produce next.  A failed generator
(for example `generateSnowflakeID` before node initialization) surfaces as
an empty string, exactly as in the Go code where the error is discarded. -/
structure TemplateEnv where
  now : Nat
  snowflakeId : String
  ulidId : String
  uuid4Id : String
  uuid7Id : String
deriving DecidableEq, Repr

/-- Template evaluation inside `applyDefaultValues`: a string default equal
to one of the five templates evaluates against the environment; any other
default is stored literally. -/
def evalDefaultValue (env : TemplateEnv) (v : Value) : Value :=
  match v with
  | .vstr s =>
    if s = defaultValueNow then .vtime env.now
    else if s = defaultValueSnowflake then .vstr env.snowflakeId
    else if s = defaultValueULID then .vstr env.ulidId
    else if s = defaultValueUUIDv4 then .vstr env.uuid4Id
    else if s = defaultValueUUIDv7 then .vstr env.uuid7Id
    else .vstr s
  | v => v

/-- The "absent, nil or empty string" test of `applyDefaultValues`
(`!exists || val == nil || val == ""`). -/
def isBlankField (v : Option Value) : Bool :=
  v == none || v == some .vnull || v == some (.vstr "")

/-- Model of `applyDefaultValues`: for every configured default, fill the
field when it is absent, nil or the empty string. -/
def applyDefaultValues (env : TemplateEnv) (tc : TableConfig) (record : Row) : Row :=
  tc.defaultValues.foldl
    (fun acc fd =>
      if isBlankField (lookupKV acc fd.1) then setKV acc fd.1 (evalDefaultValue env fd.2)
      else acc)
    record

/-! ### Introspection helpers (config materialization) -/

/-- Mirror of the introspector's `FieldMeta`. -/
structure FieldMeta where
  name : String
  type : String
  nullable : Bool
  isPrimary : Bool
  isUnique : Bool
  autoInc : Bool
  hasDefault : Bool
  default : Option Value
  comment : String
  onUpdate : Bool
deriving DecidableEq, Repr

def isStringType (typ : String) : Bool :=
  let t := goToLower typ
  strContains t "char" || strContains t "text" || strContains t "json" ||
    strContains t "enum" || strContains t "varchar"

def isIntType (typ : String) : Bool :=
  let t := goToLower typ
  strContains t "int" || strContains t "bigint" || strContains t "tinyint" ||
    strContains t "smallint"

def isFloatType (typ : String) : Bool :=
  let t := goToLower typ
  strContains t "float" || strContains t "double" || strContains t "decimal" ||
    strContains t "numeric" || strContains t "real"

def isTimeType (typ : String) : Bool :=
  let t := goToLower typ
  strContains t "time" || strContains t "date" || strContains t "timestamp"

/-- Model of `isSnowflakeBigIntType`: the closed list of big-integer type
names eligible for snowflake id generation. -/
def isSnowflakeBigIntType (typ : String) : Bool :=
  let t := goToLower typ
  t = "bigint" || t = "bigint unsigned" || t = "int8" || t = "int64"

/-- The closed soft-delete field-name list of `isSoftDelField`. -/
def isSoftDelField (name : String) : Bool :=
  let n := goToLower name
  [ "is_delete", "is_deleted", "is_remove", "is_removed", "is_obsolete",
    "is_obsoleted", "delete_at", "deleted_at", "delete_time", "deleted_time",
    "remove_at", "removed_at", "remove_time", "removed_time", "obsolete_at",
    "obsoleted_at", "obsolete_time", "obsoleted_time", "delete_flag",
    "deleted_flag", "remove_flag", "removed_flag", "obsolete_flag",
    "obsoleted_flag", "gmt_delete", "gmt_deleted" ].any (fun c => n = c)

/-- The closed auto-update field-name list of `isAutoUpdateField`. -/
def isAutoUpdateField (name : String) : Bool :=
  let n := goToLower name
  [ "update_at", "updated_at", "update_time", "updated_time", "modify_at",
    "modified_at", "modify_time", "modified_time", "last_update",
    "last_updated", "last_modify", "last_modified", "login_time",
    "last_login", "checked_at", "gmt_update", "gmt_updated" ].any (fun c => n = c)

/-- The closed response-readonly field-name list of
`isResponseReadOnlyField`. -/
def isResponseReadOnlyField (name : String) : Bool :=
  let n := goToLower name
  [ "joined_time", "joined_at", "join_time", "join_at", "created_time",
    "created_at", "create_time", "create_at", "updated_time", "updated_at",
    "update_time", "update_at", "login_time", "login_at", "last_login",
    "gmt_create", "gmt_created" ].any (fun c => n = c)

/-- The last field whose name equals `primaryKey` (the Go loop keeps
overwriting `pkField`, so a duplicate name resolves to the last one). -/
def lastFieldNamed (fields : List FieldMeta) (primaryKey : String) : Option FieldMeta :=
  fields.foldl (fun acc f => if f.name = primaryKey then some f else acc) none

/-- The per-field rule of `collectDefaultValueFields`'s loop body: a
non-nil database default is copied; otherwise an on-update or auto-update
field gets `\x7b\x7bnow\x7d\x7d`, a soft-delete field gets the zero of its
type, and a time-typed response-readonly field gets
`\x7b\x7bnow\x7d\x7d`. -/
def collectDefaultStep (defs : List (String × Value)) (f : FieldMeta) :
    List (String × Value) :=
  if f.hasDefault then
    match f.default with
    | some v => setKV defs f.name v
    | none => defs
  else if f.onUpdate || isAutoUpdateField f.name then
    setKV defs f.name (.vstr defaultValueNow)
  else if isSoftDelField f.name then
    if isIntType f.type || isFloatType f.type then setKV defs f.name (.vint 0)
    else if isStringType f.type then setKV defs f.name (.vstr "")
    else setKV defs f.name (.vint 0)
  else if isResponseReadOnlyField f.name then
    if isTimeType f.type then setKV defs f.name (.vstr defaultValueNow) else defs
  else defs

/-- Model of `collectDefaultValueFields`: the per-field rules build the
`default_values` map, then the primary key is special-cased - a primary key
without a database default and without auto-increment whose type is a
snowflake-eligible big integer gets `\x7b\x7bsnowflake\x7d\x7d`, and in
every other case (when a primary-key field exists) its entry is deleted. -/
def collectDefaultValueFields (fields : List FieldMeta) (primaryKey : String) :
    List (String × Value) :=
  let defs := fields.foldl collectDefaultStep []
  match lastFieldNamed fields primaryKey with
  | some pk =>
    if !pk.hasDefault && !pk.autoInc && isSnowflakeBigIntType pk.type then
      setKV defs primaryKey (.vstr defaultValueSnowflake)
    else removeKV defs primaryKey
  | none => defs

/-- Model of `mergeSwaggerType`: the type-merge resolution used while
sampling Mongo documents, in source order - equality first, then the
integer/number pair, then string, object, array, with string as the final
fallback. -/
def mergeSwaggerType (a b : String) : String :=
  if a = b then a
  else if (a = "integer" && b = "number") || (a = "number" && b = "integer") then "number"
  else if a = "string" || b = "string" then "string"
  else if a = "object" || b = "object" then "object"
  else if a = "array" || b = "array" then "array"
  else "string"

/-! ## Proof support: association-list algebra -/

theorem lookupKV_setKV {α : Type} (l : List (String × α)) (k0 : String) (v : α)
    (k : String) :
    lookupKV (setKV l k0 v) k = if k = k0 then some v else lookupKV l k := by
  induction l with
  | nil =>
    simp only [setKV, lookupKV]
    by_cases h : k0 = k
    · subst h; simp
    · have h' : ¬k = k0 := fun hh => h hh.symm
      simp [h, h']
  | cons hd tl ih =>
    obtain ⟨k', v'⟩ := hd
    simp only [setKV]
    by_cases h1 : k' = k0
    · subst h1
      simp only [if_pos rfl, lookupKV]
      by_cases h2 : k' = k
      · subst h2; simp
      · have h2' : ¬k = k' := fun hh => h2 hh.symm
        simp [h2, h2']
    · simp only [if_neg h1, lookupKV]
      by_cases h2 : k' = k
      · subst h2
        have hk : ¬k' = k0 := h1
        simp [hk]
      · simp [h2, ih]

theorem lookupKV_removeKV {α : Type} (l : List (String × α)) (k0 k : String) :
    lookupKV (removeKV l k0) k = if k = k0 then none else lookupKV l k := by
  induction l with
  | nil =>
    simp only [removeKV, lookupKV]
    by_cases h : k = k0 <;> simp [h]
  | cons hd tl ih =>
    obtain ⟨k', v'⟩ := hd
    simp only [removeKV]
    by_cases h1 : k' = k0
    · subst h1
      by_cases h2 : k = k'
      · subst h2
        simpa [lookupKV] using ih
      · have h2' : ¬k' = k := fun hh => h2 hh.symm
        simp only [if_pos rfl, lookupKV, if_neg h2']
        simpa [h2] using ih
    · simp only [if_neg h1, lookupKV]
      by_cases h2 : k' = k
      · subst h2
        have hk : ¬k' = k0 := h1
        simp [hk]
      · simp [h2, ih]

theorem getCol_setKV_self (r : Row) (k : String) (v : Value) :
    getCol (setKV r k v) k = v := by
  simp [getCol, lookupKV_setKV]

/-! ## Claim C9 - the type-merge lattice -/

/-- C9 counterexample: the claim states that the merge returns `string`
when either side is `string` *and* `object` when either side is `object`;
at the concrete pair `("string", "object")` the function returns `string`,
not `object`, so the claim as stated is false at this input. -/
theorem C9_counterexample :
    mergeSwaggerType "string" "object" = "string" ∧
      mergeSwaggerType "string" "object" ≠ "object" := by
  decide

/-- C9 (amended): `mergeSwaggerType` returns the common type when both
sides agree; `number` for the integer/number pair; otherwise `string` when
either side is `string`; otherwise `object` when either side is `object`;
otherwise `array` when either side is `array`; and `string` for any other
disagreeing pair.  The overlapping rules of the claim are resolved in this
priority order (string before object before array). -/
theorem C9_merge_lattice (a b : String) :
    (a = b → mergeSwaggerType a b = a) ∧
    ((a = "integer" ∧ b = "number") ∨ (a = "number" ∧ b = "integer") →
      mergeSwaggerType a b = "number") ∧
    (a ≠ b → (a = "string" ∨ b = "string") → mergeSwaggerType a b = "string") ∧
    (a ≠ b → a ≠ "string" → b ≠ "string" → (a = "object" ∨ b = "object") →
      mergeSwaggerType a b = "object") ∧
    (a ≠ b → a ≠ "string" → b ≠ "string" → a ≠ "object" → b ≠ "object" →
      (a = "array" ∨ b = "array") → mergeSwaggerType a b = "array") ∧
    (a ≠ b → a ≠ "string" → b ≠ "string" → a ≠ "object" → b ≠ "object" →
      a ≠ "array" → b ≠ "array" →
      ¬((a = "integer" ∧ b = "number") ∨ (a = "number" ∧ b = "integer")) →
      mergeSwaggerType a b = "string") := by
  refine ⟨?_, ?_, ?_, ?_, ?_, ?_⟩
  · intro h; subst h; simp [mergeSwaggerType]
  · rintro (⟨ha, hb⟩ | ⟨ha, hb⟩) <;> subst ha <;> subst hb <;> decide
  · intro hne hor
    rcases hor with ha | hb
    · subst ha; simp [mergeSwaggerType, if_neg hne]
    · subst hb
      have hne' : ¬a = "string" := hne
      simp [mergeSwaggerType, if_neg hne', hne']
  · intro hne hs1 hs2 hor
    rcases hor with ha | hb
    · subst ha
      have hb' : ¬b = "object" := fun hh => hne hh.symm
      simp [mergeSwaggerType, if_neg hne, hs2, hb']
    · subst hb
      simp [mergeSwaggerType, if_neg hne, hs1, hne]
  · intro hne hs1 hs2 ho1 ho2 hor
    rcases hor with ha | hb
    · subst ha
      have hb' : ¬b = "array" := fun hh => hne hh.symm
      simp [mergeSwaggerType, if_neg hne, hs2, ho2, hb']
    · subst hb
      simp [mergeSwaggerType, if_neg hne, hs1, ho1, hne]
  · intro hne hs1 hs2 ho1 ho2 hr1 hr2 hnum
    have h1 : ¬(a = "integer" ∧ b = "number") := fun hh => hnum (Or.inl hh)
    have h2 : ¬(a = "number" ∧ b = "integer") := fun hh => hnum (Or.inr hh)
    simp [mergeSwaggerType, if_neg hne, hs1, hs2, ho1, ho2, hr1, hr2, h1, h2]

/-- C9 witness: the amended lattice applied at concrete pairs - the
integer/number pair merges to `number`, and the disagreeing pair
`("number", "boolean")` falls through every rule to `string`. -/
theorem C9_witness :
    mergeSwaggerType "integer" "number" = "number" ∧
      mergeSwaggerType "number" "boolean" = "string" :=
  ⟨(C9_merge_lattice "integer" "number").2.1 (Or.inl ⟨rfl, rfl⟩),
    (C9_merge_lattice "number" "boolean").2.2.2.2.2 (by decide) (by decide)
      (by decide) (by decide) (by decide) (by decide) (by decide) (by decide)⟩

/-! ## Claim C8 - snowflake default for big-integer primary keys -/

theorem lastFieldNamed_aux (fields : List FieldMeta) (pk : String) :
    ∀ init : Option FieldMeta,
      fields.foldl (fun acc f => if f.name = pk then some f else acc) init = none →
        init = none ∧ ∀ f ∈ fields, f.name ≠ pk := by
  induction fields with
  | nil => intro init h; exact ⟨h, by simp⟩
  | cons hd tl ih =>
    intro init h
    simp only [List.foldl_cons] at h
    obtain ⟨hstep, htl⟩ := ih _ h
    by_cases hh : hd.name = pk
    · rw [if_pos hh] at hstep; exact absurd hstep (by simp)
    · rw [if_neg hh] at hstep
      refine ⟨hstep, ?_⟩
      intro f hf
      rcases List.mem_cons.mp hf with rfl | hf2
      · exact hh
      · exact htl f hf2

theorem lookupKV_collectDefaultStep_none {defs : List (String × Value)}
    {f : FieldMeta} {k : String} (hk : ¬k = f.name)
    (h : lookupKV defs k = none) :
    lookupKV (collectDefaultStep defs f) k = none := by
  unfold collectDefaultStep
  repeat' split
  all_goals
    first
      | exact h
      | (rw [lookupKV_setKV, if_neg hk]; exact h)

theorem lookupKV_collectDefaultFold_none (fields : List FieldMeta) (k : String)
    (hfields : ∀ f ∈ fields, f.name ≠ k) :
    ∀ init : List (String × Value), lookupKV init k = none →
      lookupKV (fields.foldl collectDefaultStep init) k = none := by
  induction fields with
  | nil => intro init h; simpa using h
  | cons hd tl ih =>
    intro init h
    simp only [List.foldl_cons]
    refine ih (fun f hf => hfields f (List.mem_cons_of_mem hd hf)) _ ?_
    exact lookupKV_collectDefaultStep_none
      (fun hh => hfields hd (List.mem_cons_self hd tl) hh.symm) h

/-- C8: during introspection, the materialized `default_values` maps the
primary key to `\x7b\x7bsnowflake\x7d\x7d` exactly when the primary-key
field (the last field of that name, as the Go loop resolves duplicates) has
neither a database default nor auto-increment and its type is one of the
big-integer names; in every other case - disqualified primary key, or no
field named like the primary key at all - the primary key has no entry. -/
theorem C8_snowflake_primary_key (fields : List FieldMeta) (primaryKey : String) :
    (match lastFieldNamed fields primaryKey with
     | some pk =>
       if !pk.hasDefault && !pk.autoInc && isSnowflakeBigIntType pk.type then
         lookupKV (collectDefaultValueFields fields primaryKey) primaryKey =
           some (.vstr defaultValueSnowflake)
       else
         lookupKV (collectDefaultValueFields fields primaryKey) primaryKey = none
     | none =>
       lookupKV (collectDefaultValueFields fields primaryKey) primaryKey = none) := by
  unfold collectDefaultValueFields
  cases hlast : lastFieldNamed fields primaryKey with
  | none =>
    simp only
    have hnames := (lastFieldNamed_aux fields primaryKey none hlast).2
    exact lookupKV_collectDefaultFold_none fields primaryKey hnames [] rfl
  | some pk =>
    simp only
    by_cases hcond : (!pk.hasDefault && !pk.autoInc && isSnowflakeBigIntType pk.type) = true
    · rw [if_pos hcond, if_pos hcond, lookupKV_setKV, if_pos rfl]
    · rw [if_neg hcond, if_neg hcond, lookupKV_removeKV, if_pos rfl]

/-! ## Claim C4 - composite-key validation -/

theorem listEqOfZip (a : List String) : ∀ b : List String,
    a.length = b.length → (∀ p ∈ a.zip b, p.1 = p.2) → a = b := by
  induction a with
  | nil =>
    intro b hlen _
    cases b with
    | nil => rfl
    | cons x xs => simp at hlen
  | cons x xs ih =>
    intro b hlen hall
    cases b with
    | nil => simp at hlen
    | cons y ys =>
      have hxy : x = y := hall (x, y) (by simp [List.zip_cons_cons])
      have : xs = ys := by
        refine ih ys (by simpa using hlen) ?_
        intro p hp
        exact hall p (by simp [List.zip_cons_cons, hp])
      rw [hxy, this]

theorem mem_zip_self {α : Type} (l : List α) : ∀ p ∈ l.zip l, p.1 = p.2 := by
  induction l with
  | nil => simp
  | cons x xs ih =>
    intro p hp
    rcases List.mem_cons.mp (by simpa [List.zip_cons_cons] using hp) with rfl | hp2
    · rfl
    · exact ih p hp2

theorem isValidKeyCombination_iff (tc : TableConfig) (fields : List String) :
    isValidKeyCombination tc fields = true ↔ ∃ g ∈ tc.uniqueKeys, g = fields := by
  unfold isValidKeyCombination
  rw [List.any_eq_true]
  constructor
  · rintro ⟨g, hg, hcond⟩
    refine ⟨g, hg, ?_⟩
    simp only [Bool.and_eq_true, decide_eq_true_eq, List.all_eq_true] at hcond
    obtain ⟨hlen, hall⟩ := hcond
    exact listEqOfZip g fields hlen (fun p hp => by simpa using hall p hp)
  · rintro ⟨g, hg, rfl⟩
    refine ⟨g, hg, ?_⟩
    simp only [Bool.and_eq_true, decide_eq_true_eq, List.all_eq_true]
    exact ⟨by simp, fun p hp => by simpa using mem_zip_self g p hp⟩

/-- C4: for the shared lookup-filter construction of `handleGetOne`,
`handleUpdateOne` and `handleDeleteOne`, a request carrying a non-empty
`?key=` list reaches the adapter only when the field list equals - order
sensitively, element by element - some group of `unique_keys` (that is what
`IsValidKeyCombination` tests); any combination not listed yields HTTP 400;
and the filter handed to the adapter pairs the comma-split path segment
positionally with the listed fields. -/
theorem C4_composite_key_validation (tc : TableConfig) (idValStr keyParam : String)
    (hkf : parseKeyFields keyParam ≠ []) :
    (isValidKeyCombination tc (parseKeyFields keyParam) = true ↔
       ∃ g ∈ tc.uniqueKeys, g = parseKeyFields keyParam) ∧
    (isValidKeyCombination tc (parseKeyFields keyParam) = false →
       buildIdFilter tc idValStr keyParam = .error .badRequest400) ∧
    (∀ flt, buildIdFilter tc idValStr keyParam = .ok flt →
       isValidKeyCombination tc (parseKeyFields keyParam) = true ∧
       (parseStringList idValStr).length = (parseKeyFields keyParam).length ∧
       flt = ((parseKeyFields keyParam).zip (parseStringList idValStr)).map
         (fun p => (p.1, .vstr p.2))) := by
  have hempty : (parseKeyFields keyParam).isEmpty = false := by
    cases hp : parseKeyFields keyParam with
    | nil => exact absurd hp hkf
    | cons a l => simp
  refine ⟨isValidKeyCombination_iff tc _, ?_, ?_⟩
  · intro hfalse
    unfold buildIdFilter
    rw [hempty]
    simp [hfalse]
  · intro flt h
    unfold buildIdFilter at h
    rw [hempty] at h
    simp only [Bool.false_eq_true, if_false] at h
    by_cases hvalid : isValidKeyCombination tc (parseKeyFields keyParam) = true
    · rw [if_neg (by simp [hvalid])] at h
      by_cases hlen : (parseStringList idValStr).length = (parseKeyFields keyParam).length
      · rw [if_neg (by simpa using hlen)] at h
        exact ⟨hvalid, hlen, (Except.ok.inj h).symm⟩
      · rw [if_pos (by simpa using hlen)] at h
        cases h
    · rw [if_pos (by simp [Bool.not_eq_true] at hvalid ⊢; exact hvalid)] at h
      cases h

/-- C4 witness: with `unique_keys = [[email]]`, `?key=email` is accepted
and paired with the path segment, while `?key=email,phone` is rejected with
HTTP 400. -/
theorem C4_witness :
    buildIdFilter
        { name := "user", aliasName := "user", primaryKey := "id",
          uniqueKeys := [["email"]], defaultValues := [], softDeleteKey := "",
          softDeleteType := "", autoUpdateFields := [] }
        "b@x" "email,phone" = .error .badRequest400 :=
  (C4_composite_key_validation _ "b@x" "email,phone" (by decide)).2.1 (by decide)

/-! ## Claim C10 - update payload processing -/

/-- C10: in `handleUpdateOne`, every key of the lookup filter is deleted
from the JSON payload first; when nothing remains the request fails with
HTTP 400 *without reaching the adapter and before the auto-update stamping*
(the statement quantifies over all configurations, in particular those with
non-empty `auto_update` lists, whose stamps would otherwise have made the
payload non-empty); when something remains, the data handed to the adapter
is the filtered payload with the auto-update fields stamped afterwards. -/
theorem C10_update_filter_keys (tc : TableConfig) (filter : List (String × Value))
    (payload : Row) (now : Nat) :
    ((∀ p ∈ payload, hasKey filter p.1 = true) →
       handleUpdateOneBody tc filter payload now = .error .badRequest400) ∧
    (∀ d, handleUpdateOneBody tc filter payload now = .ok d →
       (∃ p ∈ payload, hasKey filter p.1 = false) ∧
       d = applyAutoUpdateFields now tc
         (payload.filter (fun p => !hasKey filter p.1))) := by
  constructor
  · intro h
    unfold handleUpdateOneBody
    have hnil : payload.filter (fun p => !hasKey filter p.1) = [] := by
      rw [List.filter_eq_nil_iff]
      intro p hp
      simp [h p hp]
    rw [hnil]
    rfl
  · intro d h
    unfold handleUpdateOneBody at h
    cases hfil : payload.filter (fun p => !hasKey filter p.1) with
    | nil => rw [hfil] at h; cases h
    | cons q qs =>
      rw [hfil] at h
      simp only [List.isEmpty_cons, Bool.false_eq_true, if_false] at h
      have hq : q ∈ payload.filter (fun p => !hasKey filter p.1) := by
        rw [hfil]; exact List.mem_cons_self q qs
      have hqm := List.mem_filter.mp hq
      refine ⟨⟨q, hqm.1, by simpa using hqm.2⟩, ?_⟩
      exact (Except.ok.inj h).symm

/-- C10 witness: a payload consisting solely of the primary key is rejected
with 400 even for a table with a non-empty `auto_update` list. -/
theorem C10_witness :
    handleUpdateOneBody
        { name := "user", aliasName := "user", primaryKey := "id",
          uniqueKeys := [], defaultValues := [], softDeleteKey := "",
          softDeleteType := "", autoUpdateFields := ["updated_at"] }
        [("id", .vstr "3")] [("id", .vstr "9")] 5 = .error .badRequest400 :=
  (C10_update_filter_keys _ [("id", .vstr "3")] [("id", .vstr "9")] 5).1 (by decide)

/-! ## Claim C6 - pagination -/

/-- C6: for every list request, the resolved page size lies in
`[1, max_page_size]` (given a sane configuration, as shipped:
`default_page ≥ 1`, `default_page_size ≥ 1`, `max_page_size ≥ 1`); an
absent or non-positive `page`/`page_size` falls back to the configured
default (capped by `max_page_size` for the page size); and both adapters
skip exactly `(page − 1) × page_size` rows of the filtered sequence before
the returned page. -/
theorem C6_pagination (cfg : DmConfig) (pq sq : Option String)
    (h1 : 1 ≤ cfg.defaultPage) (h2 : 1 ≤ cfg.defaultPageSize)
    (h3 : 1 ≤ cfg.maxPageSize) :
    (1 ≤ resolvePageSize cfg sq ∧ resolvePageSize cfg sq ≤ cfg.maxPageSize) ∧
    1 ≤ resolvePage cfg pq ∧
    (∀ s, pq = some s → goAtoi s ≤ 0 → resolvePage cfg pq = cfg.defaultPage) ∧
    (pq = none → resolvePage cfg pq = cfg.defaultPage) ∧
    (∀ s, sq = some s → goAtoi s ≤ 0 →
       resolvePageSize cfg sq = min cfg.defaultPageSize cfg.maxPageSize) ∧
    (sq = none → resolvePageSize cfg sq = min cfg.defaultPageSize cfg.maxPageSize) ∧
    (∀ (tc : TableConfig) (rows : List Row) (docs : List Doc)
       (fieldsQ orderQ : String) (qfs : List (String × String)),
       (gormList tc rows
           ⟨resolvePage cfg pq, resolvePageSize cfg sq, fieldsQ, orderQ, qfs⟩).1 =
         ((gormFilteredRows tc rows
             ⟨resolvePage cfg pq, resolvePageSize cfg sq, fieldsQ, orderQ, qfs⟩).drop
           ((resolvePage cfg pq - 1) * resolvePageSize cfg sq).toNat).take
           (resolvePageSize cfg sq).toNat ∧
       (mongoList tc docs
           ⟨resolvePage cfg pq, resolvePageSize cfg sq, fieldsQ, orderQ, qfs⟩).1 =
         ((docs.filter (mongoDocMatches (buildMongoFilter tc qfs))).drop
           ((resolvePage cfg pq - 1) * resolvePageSize cfg sq).toNat).take
           (resolvePageSize cfg sq).toNat) := by
  refine ⟨?_, ?_, ?_, ?_, ?_, ?_, ?_⟩
  · unfold resolvePageSize capPageSize fallbackPageSize
    by_cases hps : pageSizeRaw cfg sq ≤ 0
    · rw [if_pos hps]
      constructor <;> split <;> omega
    · rw [if_neg hps]
      constructor <;> split <;> omega
  · unfold resolvePage
    split <;> omega
  · intro s hs hv
    subst hs
    unfold resolvePage
    rw [if_pos (by simpa [pageRaw] using hv)]
  · intro hs
    subst hs
    unfold resolvePage pageRaw
    split <;> rfl
  · intro s hs hv
    subst hs
    have hraw : pageSizeRaw cfg (some s) = goAtoi s := rfl
    unfold resolvePageSize capPageSize fallbackPageSize
    rw [hraw, if_pos hv, min_def]
    split <;> split <;> omega
  · intro hs
    subst hs
    have hraw : pageSizeRaw cfg none = cfg.defaultPageSize := rfl
    unfold resolvePageSize capPageSize fallbackPageSize
    rw [hraw, if_neg (by omega : ¬cfg.defaultPageSize ≤ 0), min_def]
    split <;> split <;> omega
  · intro tc rows docs fieldsQ orderQ qfs
    exact ⟨rfl, rfl⟩

/-- C6 witness: with the shipped defaults `(1, 10, 1000)`, an absent
`page_size` resolves to 10 and a `page=0` request falls back to page 1. -/
theorem C6_witness :
    (1 ≤ resolvePageSize ⟨1, 10, 1000⟩ none ∧
      resolvePageSize ⟨1, 10, 1000⟩ none ≤ (1000 : Int)) ∧
    resolvePage ⟨1, 10, 1000⟩ (some "0") = 1 := by
  have T := C6_pagination ⟨1, 10, 1000⟩ (some "0") none (by decide) (by decide)
    (by decide)
  exact ⟨T.1, T.2.2.1 "0" rfl (by decide)⟩

/-! ## Claim C5 - the total-count cache -/

/-- C5: when every query parameter is one of `page`, `page_size`, `order`,
`fields`, the response's `total` is the cached count stored by the
background refresher for that `(database alias, table alias)` (here: the
cache right after a refresh step); when some other parameter is present,
`total` is the adapter's recomputation - the count of the rows passing the
soft-delete predicate and all filter clauses - regardless of the cache. -/
theorem C5_total_count (cfg : DmConfig) (cache : List (String × Int)) (db : String)
    (tc : TableConfig) (rowsAtRefresh rowsNow : List Row)
    (qp : List (String × String)) :
    ((∀ p ∈ qp, filterParamKeyExcluded p.1 = true) →
       (handleListResult cfg (refreshTableCount cache db tc rowsAtRefresh) db tc
           rowsNow qp).1 =
         gormCountAll tc rowsAtRefresh) ∧
    ((∃ p ∈ qp, filterParamKeyExcluded p.1 = false) →
       ∀ cache2 : List (String × Int),
         (handleListResult cfg cache2 db tc rowsNow qp).1 =
           ((rowsNow.filter (fun r =>
               passesGormSoftDel tc r &&
                 (buildGormConds qp).all (evalGormCond r))).length : Int)) := by
  constructor
  · intro hall
    have hnf : isFilteredRequest qp = false := by
      unfold isFilteredRequest
      rw [List.any_eq_false]
      intro p hp
      simp [hall p hp]
    unfold handleListResult refreshTableCount
    rw [hnf]
    simp only [Bool.not_false, if_true]
    rw [lookupKV_setKV, if_pos rfl]
  · intro hex cache2
    have hf : isFilteredRequest qp = true := by
      unfold isFilteredRequest
      rw [List.any_eq_true]
      obtain ⟨p, hp, hpf⟩ := hex
      exact ⟨p, hp, by simp [hpf]⟩
    unfold handleListResult
    rw [hf]
    simp only [Bool.not_true, Bool.false_eq_true, if_false]
    unfold gormList
    have hf2 : (qp.any fun p => !filterParamKeyExcluded p.1) = true := hf
    simp only [handleListParams, hf2, if_true]
    rfl

/-- C5 witness: with one row visible at refresh time, an unfiltered request
(`?page=1`) answers the cached total 1 even over different current rows,
while a filtered request (`?age=3`) answers the recomputed count 0. -/
theorem C5_witness :
    (handleListResult ⟨1, 10, 1000⟩
        (refreshTableCount [] "test"
          { name := "user", aliasName := "user", primaryKey := "id",
            uniqueKeys := [], defaultValues := [], softDeleteKey := "",
            softDeleteType := "", autoUpdateFields := [] }
          [[("id", .vstr "1")]])
        "test"
        { name := "user", aliasName := "user", primaryKey := "id",
          uniqueKeys := [], defaultValues := [], softDeleteKey := "",
          softDeleteType := "", autoUpdateFields := [] }
        [] [("page", "1")]).1 = 1 ∧
    (handleListResult ⟨1, 10, 1000⟩ [] "test"
        { name := "user", aliasName := "user", primaryKey := "id",
          uniqueKeys := [], defaultValues := [], softDeleteKey := "",
          softDeleteType := "", autoUpdateFields := [] }
        [] [("age", "3")]).1 = 0 := by
  constructor
  · have h := (C5_total_count ⟨1, 10, 1000⟩ [] "test"
      { name := "user", aliasName := "user", primaryKey := "id",
        uniqueKeys := [], defaultValues := [], softDeleteKey := "",
        softDeleteType := "", autoUpdateFields := [] }
      [[("id", .vstr "1")]] [] [("page", "1")]).1 (by decide)
    rw [h]
    decide
  · have h := (C5_total_count ⟨1, 10, 1000⟩ [] "test"
      { name := "user", aliasName := "user", primaryKey := "id",
        uniqueKeys := [], defaultValues := [], softDeleteKey := "",
        softDeleteType := "", autoUpdateFields := [] }
      [] [] [("age", "3")]).2 (by decide) []
    rw [h]
    decide


/-! ## Claim C3 - filter-value parsing for `__in` and `__between` -/

/-- For the C3 comparison only - the membership predicate the claim's words
prescribe for the relational `__in`: each comma-split element parsed
independently as integer / float / boolean / string (`parseFilterValues`)
before use in the predicate.  The source instead binds the raw comma-split
strings (`parseStringList`); see `C3_counterexample`. -/
def evalGormInAsClaimed (r : Row) (f : String) (value : String) : Bool :=
  (parseFilterValues value).any (fun v => sqlEq (getCol r f) v)

/-- C3 counterexample: for the parameter `age__in=1,2` the relational
adapter builds `age IN ('1','2')` from the *raw strings* - not the
independently parsed integers the claim demands - and on a row whose `age`
column holds the integer 1 the built predicate does not match, while the
claimed parsed-membership predicate does. -/
theorem C3_counterexample :
    buildGormConds [("age__in", "1,2")] = [.inList "age" ["1", "2"]] ∧
    parseFilterValues "1,2" = [.vint 1, .vint 2] ∧
    evalGormCond [("age", .vint 1)] (.inList "age" ["1", "2"]) = false ∧
    evalGormInAsClaimed [("age", .vint 1)] "age" "1,2" = true := by
  decide

/-- C3 (amended): for a parameter whose key splits at `__` into a field
name and `in`, the document adapter's predicate uses the comma-split,
trimmed and independently parsed values (`parseFilterValues`), but the
relational adapter binds the raw comma-split strings (`parseStringList`,
no trimming, no typed parsing); for suffix `between`, both adapters use the
independently parsed values, and add no clause unless exactly two values
are present. -/
theorem C3_filter_value_parsing (key f v : String)
    (hc : strContains key "__" = true) :
    (goSplitN2 key "__" = some (f, "in") →
       gormCondOfParam key v = [.inList f (parseStringList v)] ∧
       mongoPredOfParam key v = some (f, .inp (parseFilterValues v))) ∧
    (goSplitN2 key "__" = some (f, "between") →
       (∀ lo hi, parseFilterValues v = [lo, hi] →
          gormCondOfParam key v = [.between f lo hi] ∧
          mongoPredOfParam key v = some (f, .rangep lo hi)) ∧
       ((parseFilterValues v).length ≠ 2 →
          gormCondOfParam key v = [] ∧ mongoPredOfParam key v = none)) := by
  constructor
  · intro hsplit
    constructor
    · simp [gormCondOfParam, hc, hsplit]
    · simp [mongoPredOfParam, hc, hsplit]
  · intro hsplit
    constructor
    · intro lo hi hvals
      constructor
      · simp [gormCondOfParam, hc, hsplit, hvals]
      · simp [mongoPredOfParam, hc, hsplit, hvals]
    · intro hlen
      constructor
      · simp only [gormCondOfParam, hc, hsplit]
        rcases hl : parseFilterValues v with _ | ⟨a, _ | ⟨b, _ | ⟨c, l⟩⟩⟩ <;>
          simp_all
      · simp only [mongoPredOfParam, hc, hsplit]
        rcases hl : parseFilterValues v with _ | ⟨a, _ | ⟨b, _ | ⟨c, l⟩⟩⟩ <;>
          simp_all

/-- C3 witness: the amended statement applied at `age__in=5, x`: the
relational clause holds the raw strings, the document clause the parsed
values. -/
theorem C3_witness :
    gormCondOfParam "age__in" "5, x" = [.inList "age" (parseStringList "5, x")] ∧
    mongoPredOfParam "age__in" "5, x" =
      some ("age", .inp (parseFilterValues "5, x")) :=
  (C3_filter_value_parsing "age__in" "age" "5, x" (by decide)).1 (by decide)


/-! ## Claim C7 - idempotence of default-value application -/

/-- One step of default filling on a single field's current value. -/
def defaultStep (env : TemplateEnv) (v : Option Value) (d : Value) : Option Value :=
  if isBlankField v then some (evalDefaultValue env d) else v

/-- The effect of `applyDefaultValues` on one field: chain of the defaults
configured for that field over its current value. -/
def chainDefaults (env : TemplateEnv) (ds : List Value) (v : Option Value) :
    Option Value :=
  ds.foldl (defaultStep env) v

theorem applyDefaults_lookup (env : TemplateEnv) (tc : TableConfig) (r : Row)
    (g : String) :
    lookupKV (applyDefaultValues env tc r) g =
      chainDefaults env
        ((tc.defaultValues.filter (fun fd => fd.1 = g)).map Prod.snd)
        (lookupKV r g) := by
  unfold applyDefaultValues
  generalize tc.defaultValues = l
  induction l generalizing r with
  | nil => rfl
  | cons hd tl ih =>
    obtain ⟨k, d⟩ := hd
    rw [List.foldl_cons, ih]
    by_cases hkg : k = g
    · subst hkg
      by_cases hb : isBlankField (lookupKV r k) = true
      · simp [List.filter_cons, chainDefaults, defaultStep, hb, lookupKV_setKV]
      · simp [List.filter_cons, chainDefaults, defaultStep, hb]
    · have hne : ¬g = k := fun hh => hkg hh.symm
      by_cases hb : isBlankField (lookupKV r k) = true
      · simp [List.filter_cons, hkg, hb, lookupKV_setKV, hne]
      · simp [List.filter_cons, hkg, hb]

theorem chainDefaults_stable (env : TemplateEnv) (ds : List Value)
    (v : Option Value) (h : isBlankField v = false) :
    chainDefaults env ds v = v := by
  induction ds with
  | nil => rfl
  | cons d tl ih =>
    simp only [chainDefaults, List.foldl_cons, defaultStep, h, Bool.false_eq_true,
      if_false] at ih ⊢
    exact ih

theorem chainDefaults_blank (env : TemplateEnv) (ds : List Value) :
    ∀ v : Option Value, isBlankField (chainDefaults env ds v) = true →
      isBlankField v = true := by
  induction ds with
  | nil => intro v h; exact h
  | cons d tl ih =>
    intro v h
    simp only [chainDefaults, List.foldl_cons] at h
    have hstep := ih (defaultStep env v d) h
    by_cases hv : isBlankField v = true
    · exact hv
    · rw [defaultStep, if_neg hv] at hstep
      exact hstep

theorem chainDefaults_idem (env : TemplateEnv) (ds : List Value) :
    ∀ v : Option Value,
      chainDefaults env ds (chainDefaults env ds v) = chainDefaults env ds v := by
  induction ds with
  | nil => intro v; rfl
  | cons d tl ih =>
    intro v
    simp only [chainDefaults, List.foldl_cons]
    by_cases hv : isBlankField v = true
    · rw [show defaultStep env v d = some (evalDefaultValue env d) from by
        simp only [defaultStep, if_pos hv]]
      by_cases hw : isBlankField
          (List.foldl (defaultStep env) (some (evalDefaultValue env d)) tl) = true
      · rw [show defaultStep env
            (List.foldl (defaultStep env) (some (evalDefaultValue env d)) tl) d =
            some (evalDefaultValue env d) from by
          simp only [defaultStep, if_pos hw]]
      · rw [show defaultStep env
            (List.foldl (defaultStep env) (some (evalDefaultValue env d)) tl) d =
            List.foldl (defaultStep env) (some (evalDefaultValue env d)) tl from by
          simp only [defaultStep, if_neg hw]]
        simpa [chainDefaults] using chainDefaults_stable env tl
          (List.foldl (defaultStep env) (some (evalDefaultValue env d)) tl)
          (by simpa using hw)
    · rw [show defaultStep env v d = v from by simp only [defaultStep, if_neg hv]]
      by_cases hw : isBlankField (List.foldl (defaultStep env) v tl) = true
      · exact absurd
          (chainDefaults_blank env tl v (by simpa [chainDefaults] using hw)) hv
      · rw [show defaultStep env (List.foldl (defaultStep env) v tl) d =
            List.foldl (defaultStep env) v tl from by
          simp only [defaultStep, if_neg hw]]
        simpa [chainDefaults] using chainDefaults_stable env tl
          (List.foldl (defaultStep env) v tl)
          (by simpa using hw)

/-- C7 counterexample: with the literal default `""` (which the
introspector itself generates for string-typed soft-delete fields), the
first application fills the absent field `note`, yet the field is *empty*
afterwards - contradicting the claim's "every field filled by the first
application is non-absent, non-nil and non-empty"; the second application
re-applies the rule, writing the same value again. -/
theorem C7_counterexample :
    applyDefaultValues ⟨9, "sf", "ul", "u4", "u7"⟩
        { name := "user", aliasName := "user", primaryKey := "id",
          uniqueKeys := [], defaultValues := [("note", .vstr "")],
          softDeleteKey := "", softDeleteType := "", autoUpdateFields := [] }
        [] = [("note", .vstr "")] ∧
    isBlankField (lookupKV
        (applyDefaultValues ⟨9, "sf", "ul", "u4", "u7"⟩
          { name := "user", aliasName := "user", primaryKey := "id",
            uniqueKeys := [], defaultValues := [("note", .vstr "")],
            softDeleteKey := "", softDeleteType := "", autoUpdateFields := [] }
          []) "note") = true := by
  decide

/-- C7 (amended): applying the default-value rules twice in sequence, with
the same template environment (the same instant and generator draws),
yields the same map as applying them once - compared field by field, as Go
maps are.  A field filled with a template value or a non-empty literal is
non-blank afterwards and skipped by the second pass; a nil or empty-string
literal default (and a failed id generator, which yields `""`) leaves the
field blank and is re-applied by the second pass, writing the same value
again. -/
theorem C7_default_idempotent (env : TemplateEnv) (tc : TableConfig) (r : Row)
    (g : String) :
    lookupKV (applyDefaultValues env tc (applyDefaultValues env tc r)) g =
      lookupKV (applyDefaultValues env tc r) g := by
  rw [applyDefaults_lookup, applyDefaults_lookup]
  exact chainDefaults_idem env _ _


/-! ## Claim C2 - delete of an already-soft-deleted row -/

theorem findFirstSplit_of_exists {α : Type} (p : α → Bool) (l : List α)
    (h : ∃ x ∈ l, p x = true) :
    ∃ a y b, findFirstSplit p l = some (a, y, b) := by
  induction l with
  | nil =>
    obtain ⟨x, hx, _⟩ := h
    cases hx
  | cons hd tl ih =>
    by_cases hp : p hd = true
    · exact ⟨[], hd, tl, by simp [findFirstSplit, hp]⟩
    · obtain ⟨x, hx, hpx⟩ := h
      rcases List.mem_cons.mp hx with rfl | hx2
      · exact absurd hpx hp
      · obtain ⟨a, y, b, hab⟩ := ih ⟨x, hx2, hpx⟩
        exact ⟨hd :: a, y, b, by simp [findFirstSplit, hp, hab]⟩

/-- C2 counterexample: with a timestamp soft-delete marker, deleting the
row `{id: "1", deleted_at: 5}` (already soft-deleted) at instant 7
returns affected = 1 on the relational adapter - not 0 as the claim states -
and the document adapter's `DeleteOne` still matches the document (its
filter carries no soft-delete predicate) and re-stamps it from 5 to 7
rather than being a no-op. -/
theorem C2_counterexample :
    gormDeleteOne
        { name := "user", aliasName := "user", primaryKey := "id",
          uniqueKeys := [], defaultValues := [], softDeleteKey := "deleted_at",
          softDeleteType := "timestamp", autoUpdateFields := [] }
        7 [[("id", .vstr "1"), ("deleted_at", .vtime 5)]] [("id", .vstr "1")] =
      .ok (1, [[("id", .vstr "1"), ("deleted_at", .vtime 7)]]) ∧
    (1 : Nat) ≠ 0 ∧
    mongoDeleteOne
        { name := "user", aliasName := "user", primaryKey := "id",
          uniqueKeys := [], defaultValues := [], softDeleteKey := "deleted_at",
          softDeleteType := "timestamp", autoUpdateFields := [] }
        7 [[("id", .vstr "1"), ("deleted_at", .vtime 5)]] [("id", .vstr "1")] =
      .ok (1, [[("id", .vstr "1"), ("deleted_at", .vtime 7)]]) := by
  decide

/-- C2 (amended): a `DeleteOne` against an already-soft-deleted row never
returns an error on either adapter.  The reason is not the one the claim
gives: neither `DeleteOne` adds the soft-delete predicate to its filter, so
the row still matches - the relational update reports it among the affected
rows (affected ≥ 1, not 0) and the document update re-stamps the marker on
it. -/
theorem C2_soft_delete_no_error (tc : TableConfig) (now : Nat) (rows : List Row)
    (docs : List Doc) (filter : List (String × Value)) (r : Row) (d : Doc)
    (hkey : tc.softDeleteKey ≠ "")
    (hr : r ∈ rows) (hrm : matchesRow filter r = true)
    (_hrdel : passesGormSoftDel tc r = false)
    (hd : d ∈ docs) (hdm : mongoDeleteMatches filter d = true) :
    (∃ aff rows2, gormDeleteOne tc now rows filter = .ok (aff, rows2) ∧ 1 ≤ aff) ∧
    (∃ m docs2, mongoDeleteOne tc now docs filter = .ok (m, docs2)) := by
  constructor
  · unfold gormDeleteOne
    rw [if_neg hkey]
    have hposlen : 0 < (rows.filter (matchesRow filter)).length :=
      List.length_pos.mpr (List.ne_nil_of_mem (List.mem_filter.mpr ⟨hr, hrm⟩))
    rw [if_neg (by omega)]
    exact ⟨_, _, rfl, by omega⟩
  · unfold mongoDeleteOne
    rw [if_neg hkey]
    obtain ⟨a, y, b, hab⟩ := findFirstSplit_of_exists (mongoDeleteMatches filter)
      docs ⟨d, hd, hdm⟩
    rw [hab]
    exact ⟨_, _, rfl⟩

/-- C2 witness: the amended statement at the concrete already-soft-deleted
row of the counterexample. -/
theorem C2_witness :
    (∃ aff rows2,
       gormDeleteOne
           { name := "user", aliasName := "user", primaryKey := "id",
             uniqueKeys := [], defaultValues := [], softDeleteKey := "deleted_at",
             softDeleteType := "timestamp", autoUpdateFields := [] }
           7 [[("id", .vstr "1"), ("deleted_at", .vtime 5)]] [("id", .vstr "1")] =
         .ok (aff, rows2) ∧ 1 ≤ aff) ∧
    (∃ m docs2,
       mongoDeleteOne
           { name := "user", aliasName := "user", primaryKey := "id",
             uniqueKeys := [], defaultValues := [], softDeleteKey := "deleted_at",
             softDeleteType := "timestamp", autoUpdateFields := [] }
           7 [[("id", .vstr "1"), ("deleted_at", .vtime 5)]] [("id", .vstr "1")] =
         .ok (m, docs2)) :=
  C2_soft_delete_no_error _ 7 _ _ _
    [("id", .vstr "1"), ("deleted_at", .vtime 5)]
    [("id", .vstr "1"), ("deleted_at", .vtime 5)]
    (by decide) (by decide) (by decide) (by decide) (by decide) (by decide)

/-! ## Claim C1 - soft-delete invisibility -/

theorem softDelReadPasses_mark (tc : TableConfig) (now : Nat) (hnow : now ≠ 0) :
    softDelReadPasses tc (softDeleteMarkValue tc now) = false := by
  unfold softDelReadPasses softDeleteMarkValue
  by_cases h1 : tc.softDeleteType = "timestamp"
  · simp [h1, hnow]
  · by_cases h2 : tc.softDeleteType = "boolean"
    · simp [h1, h2]
    · by_cases h3 : tc.softDeleteType = "int"
      · simp [h1, h2, h3]
      · simp [h1, h2, h3]

theorem passesGormSoftDel_marked (tc : TableConfig) (now : Nat) (r : Row)
    (hkey : tc.softDeleteKey ≠ "") (hnow : now ≠ 0) :
    passesGormSoftDel tc
      (setKV r tc.softDeleteKey (softDeleteMarkValue tc now)) = false := by
  unfold passesGormSoftDel
  rw [if_neg hkey, getCol_setKV_self]
  exact softDelReadPasses_mark tc now hnow

theorem gormDeleteOne_soft_ok (tc : TableConfig) (now : Nat) (rows : List Row)
    (filter : List (String × Value)) (aff : Nat) (rows2 : List Row)
    (hkey : tc.softDeleteKey ≠ "")
    (h : gormDeleteOne tc now rows filter = .ok (aff, rows2)) :
    rows2 = rows.map (fun r =>
      if matchesRow filter r then setKV r tc.softDeleteKey (softDeleteMarkValue tc now)
      else r) := by
  unfold gormDeleteOne at h
  rw [if_neg hkey] at h
  split at h
  · split at h
    · simp at h
    · injection h with h2
      injection h2 with ha hb
      exact hb.symm
  · injection h with h2
    injection h2 with ha hb
    exact hb.symm

/-- C1: with a soft-delete key configured, after a successful `DeleteOne`
for a filter (the primary key, as the handler builds it), a subsequent
`GetOne` with the same filter returns the not-found error that the handler
maps to HTTP 404, and a subsequent `List` - with or without filter
parameters - contains no row matching that filter, because every read adds
the `softdel_type` read predicate which the written marker fails. -/
theorem C1_soft_delete_invisibility (tc : TableConfig) (now : Nat)
    (rows : List Row) (filter : List (String × Value)) (aff : Nat)
    (rows2 : List Row)
    (hkey : tc.softDeleteKey ≠ "") (hnow : now ≠ 0)
    (hdel : gormDeleteOne tc now rows filter = .ok (aff, rows2)) :
    gormGetOne tc rows2 filter = .error .notFound ∧
    getOneHttpStatus (gormGetOne tc rows2 filter) = 404 ∧
    (∀ params : ListQueryParams, ∀ r ∈ (gormList tc rows2 params).1,
       matchesRow filter r = false) := by
  have hrows2 := gormDeleteOne_soft_ok tc now rows filter aff rows2 hkey hdel
  have hcore : ∀ r ∈ rows2, passesGormSoftDel tc r = true →
      matchesRow filter r = false := by
    intro r hr hp
    rw [hrows2] at hr
    obtain ⟨r0, hr0, hmap⟩ := List.mem_map.mp hr
    by_cases hm : matchesRow filter r0 = true
    · rw [if_pos hm] at hmap
      rw [← hmap] at hp
      rw [passesGormSoftDel_marked tc now r0 hkey hnow] at hp
      cases hp
    · rw [if_neg hm] at hmap
      rw [← hmap]
      exact Bool.eq_false_iff.mpr hm
  have hget : gormGetOne tc rows2 filter = .error .notFound := by
    unfold gormGetOne
    have hnone : rows2.find?
        (fun r => passesGormSoftDel tc r && matchesRow filter r) = none := by
      rw [List.find?_eq_none]
      intro x hx
      simp only [Bool.and_eq_true, not_and]
      intro hp hm
      rw [hcore x hx hp] at hm
      cases hm
    rw [hnone]
  refine ⟨hget, by rw [hget]; rfl, ?_⟩
  intro params r hr
  have hr2 : r ∈ gormFilteredRows tc rows2 params :=
    List.mem_of_mem_drop (List.mem_of_mem_take hr)
  have hcond := List.mem_filter.mp hr2
  exact hcore r hcond.1 ((Bool.and_eq_true _ _).mp hcond.2).1

/-- C1 witness: deleting the live row `{id: "1"}` at instant 7
makes the subsequent `GetOne` by the same primary-key filter return
not-found / HTTP 404. -/
theorem C1_witness :
    gormGetOne
        { name := "user", aliasName := "user", primaryKey := "id",
          uniqueKeys := [], defaultValues := [], softDeleteKey := "deleted_at",
          softDeleteType := "timestamp", autoUpdateFields := [] }
        [[("id", .vstr "1"), ("deleted_at", .vtime 7)]] [("id", .vstr "1")] =
      .error .notFound ∧
    getOneHttpStatus
        (gormGetOne
          { name := "user", aliasName := "user", primaryKey := "id",
            uniqueKeys := [], defaultValues := [], softDeleteKey := "deleted_at",
            softDeleteType := "timestamp", autoUpdateFields := [] }
          [[("id", .vstr "1"), ("deleted_at", .vtime 7)]] [("id", .vstr "1")]) =
      404 := by
  have T := C1_soft_delete_invisibility
    { name := "user", aliasName := "user", primaryKey := "id",
      uniqueKeys := [], defaultValues := [], softDeleteKey := "deleted_at",
      softDeleteType := "timestamp", autoUpdateFields := [] }
    7 [[("id", .vstr "1")]] [("id", .vstr "1")] 1
    [[("id", .vstr "1"), ("deleted_at", .vtime 7)]]
    (by decide) (by decide) (by decide)
  exact ⟨T.1, T.2.1⟩

end Ego
